import Mathlib

/-!
Verification development for the nova-eslint extension.

The JavaScript sources under `eslint.novaextension/Scripts/` are shallowly
embedded below:

* `JSValue` models dynamically typed JavaScript values as far as the embedded
  functions inspect them (typeof checks, truthiness, property access).
* `convertOneMessage` / `convertESLintMessagesToIssues` embed
  `eslintUtils.js` / `convertESLintMessagesToIssues`.
* `parseOutputLS` embeds `LintService.parseOutput` (domain/lint-service.js);
  `JSON.parse` is an external library routine and is abstracted as an oracle
  `jp : String → Option JSValue` (returning `none` when `JSON.parse` throws).
* `exitSettlement` embeds the `onDidExit` settlement logic of
  `ESLintRunner._executeESLintProcess` (eslint-runner.js), and `execStep`
  embeds its settle-once guard as a state machine over termination signals.
* `findESLint` / `ensureESLint` embed executable resolution in
  eslint-runner.js; `getESLintPathLS` embeds `LintService.getESLintPath`.
* `provStep` embeds the diagnostic request coordinator of
  `EslintProvider.provideIssues` (debounce, supersession, active-lint set).
* `fixStep` embeds one fix-on-save cycle of FixOnSaveHandler.js, with the
  timer bookkeeping of `startFixing` / `addPendingTimeout` / `stopFixing`.
-/

namespace NovaEslint

/-! ## JavaScript value model -/

inductive JSValue where
  | undefV
  | nullV
  | boolV (b : Bool)
  | numV (n : Int)
  | strV (s : String)
  | arrV (elems : List JSValue)
  | objV (fields : List (String × JSValue))
  deriving Repr

/-- Property access `v.k`: object lookup, `undefined` otherwise. -/
def JSValue.getField : JSValue → String → JSValue
  | .objV fs, k =>
      match fs.find? (fun p => p.1 = k) with
      | some p => p.2
      | none => .undefV
  | _, _ => .undefV

/-- JavaScript truthiness. -/
def JSValue.truthy : JSValue → Bool
  | .undefV => false
  | .nullV => false
  | .boolV b => b
  | .numV n => n != 0
  | .strV s => s != ""
  | .arrV _ => true
  | .objV _ => true

/-- `typeof v === 'string'`. -/
def JSValue.isString : JSValue → Bool
  | .strV _ => true
  | _ => false

/-- `typeof v === 'number'`. -/
def JSValue.isNumber : JSValue → Bool
  | .numV _ => true
  | _ => false

/-- Extract a number, `none` when the value is not a number. -/
def JSValue.asNumber : JSValue → Option Int
  | .numV n => some n
  | _ => none

def JSValue.toNumber (v : JSValue) : Int :=
  match v with
  | .numV n => n
  | _ => 0

def JSValue.toStr (v : JSValue) : String :=
  match v with
  | .strV s => s
  | _ => ""

/-- Whitespace per JavaScript `String.prototype.trim`. -/
def isWhitespaceChar (c : Char) : Bool :=
  c = ' ' || c = '\t' || c = '\n' || c = '\r'

/-- The JavaScript `String.prototype.trim` builtin (an external library
routine, embedded as an executable function). -/
def jsTrim (s : String) : String :=
  String.mk
    (((s.data.dropWhile isWhitespaceChar).reverse.dropWhile
        isWhitespaceChar).reverse)

/-! ## convertESLintMessagesToIssues (eslintUtils.js) -/

/-- An issue record as built by `convertESLintMessagesToIssues`. -/
structure Issue where
  line : Int
  column : Int
  message : String
  severity : String
  code : Option JSValue
  endLine : Option Int
  endColumn : Option Int
  deriving Repr

/-- The `switch (msg.severity)` mapping: 1 → warning, 2 → error, default info. -/
def severityOf (v : JSValue) : String :=
  match v with
  | .numV n => if n = 1 then "warning" else if n = 2 then "error" else "info"
  | _ => "info"

/-- One loop iteration of `convertESLintMessagesToIssues`: the required-field
validation (`continue` is modelled by `none`) followed by the field mapping. -/
def convertOneMessage (m : JSValue) : Option Issue :=
  if (m.getField "message").isString = false ∨
     (m.getField "line").isNumber = false ∨
     (m.getField "column").isNumber = false then
    none
  else
    some
      { line := (m.getField "line").toNumber
        column := (m.getField "column").toNumber
        message := (m.getField "message").toStr
        severity := severityOf (m.getField "severity")
        code :=
          if (m.getField "ruleId").truthy then some (m.getField "ruleId")
          else none
        endLine := (m.getField "endLine").asNumber
        endColumn := (m.getField "endColumn").asNumber }

/-- `convertESLintMessagesToIssues(messages)`. -/
def convertESLintMessagesToIssues (messages : JSValue) : List Issue :=
  match messages with
  | .arrV ms => ms.filterMap convertOneMessage
  | _ => []

/-- Helper to build a raw diagnostic record with the seven fields the mapper
inspects. -/
def mkMsgRecord (msg line col sv rid el ec : JSValue) : JSValue :=
  .objV
    [("message", msg), ("line", line), ("column", col), ("severity", sv),
     ("ruleId", rid), ("endLine", el), ("endColumn", ec)]

/-! ## LintService.parseOutput (domain/lint-service.js) -/

/-- The object returned by `LintService.parseOutput`: the `messages` field
(`firstResult.messages || []`) and the `output` field
(`firstResult.output || null`, `none` modelling JavaScript `null`). -/
structure ParsedOutput where
  messages : JSValue
  output : Option JSValue
  deriving Repr

/-- `LintService.parseOutput(stdout)`.  `stdout = none` models a `null` or
`undefined` argument; `jp` is the `JSON.parse` oracle (`none` = throws).
`Except.error` models the re-thrown parse failure. -/
def parseOutputLS (jp : String → Option JSValue) (stdout : Option String) :
    Except String ParsedOutput :=
  match stdout with
  | none => .ok ⟨.arrV [], none⟩
  | some s =>
      if s = "" then .ok ⟨.arrV [], none⟩
      else if jsTrim s = "" then .ok ⟨.arrV [], none⟩
      else
        match jp s with
        | none => .error "Failed to parse ESLint output"
        | some v =>
            match v with
            | .arrV [] => .ok ⟨.arrV [], none⟩
            | .arrV (first :: _) =>
                .ok
                  ⟨(if (first.getField "messages").truthy then
                      first.getField "messages"
                    else .arrV []),
                    (if (first.getField "output").truthy then
                      some (first.getField "output")
                    else none)⟩
            | _ => .ok ⟨.arrV [], none⟩

/-! ## Errors

JavaScript error values: `plainE` is a bare `new Error(message)`;
`configE`, `notFoundE` and `workspaceE` are the `ESLintConfigError`,
`ESLintNotFoundError` and `WorkspaceError` classes of
domain/errors/LintErrors.js. -/

inductive JSError where
  | plainE (message : String)
  | configE (message : String)
  | notFoundE (message : String)
  | workspaceE (message : String)
  deriving Repr, DecidableEq

/-- `error instanceof ESLintConfigError` (the check EslintProvider.handleError
performs to classify an error as a configuration error). -/
def isConfigErrorClass : Except JSError JSValue → Bool
  | .error (.configE _) => true
  | _ => false

/-! ## ESLintRunner._executeESLintProcess exit settlement (eslint-runner.js)

The `onDidExit` handler: exit codes 0 and 1 parse stdout and resolve, any
other exit code rejects with `ESLint failed (exit N): stderr || stdout ||
'Unknown error'`. -/

def exitSettlement (jp : String → Option JSValue) (exitCode : Int)
    (stdout stderr : String) : Except JSError JSValue :=
  if exitCode = 0 ∨ exitCode = 1 then
    match jp stdout with
    | none => .error (.plainE "Failed to parse ESLint output")
    | some v =>
        match v with
        | .arrV [] => .ok (.objV [("messages", .arrV [])])
        | .arrV (first :: _) => .ok first
        | _ => .ok (.objV [("messages", .arrV [])])
  else
    .error
      (.plainE
        ("ESLint failed (exit " ++ toString exitCode ++ "): " ++
          (if stderr != "" then stderr
           else if stdout != "" then stdout
           else "Unknown error")))

/-- The exit-code settlement of `LintService.lint` (domain/lint-service.js):
only exit code 2 throws, with `ESLint failed: stderr`; every other exit code
parses stdout. -/
def lintServiceLintOutcome (jp : String → Option JSValue) (exitCode : Int)
    (stdout stderr : String) : Except String JSValue :=
  if exitCode = 2 then .error ("ESLint failed: " ++ stderr)
  else
    match parseOutputLS jp (some stdout) with
    | .error e => .error e
    | .ok parsed => .ok parsed.messages

/-! ## ESLintRunner.fix / LintService.fix output handling -/

/-- `result?.output || null` in `ESLintRunner.fix` (eslint-runner.js):
`result` is the resolved process result (`none` models
`undefined`/`null`). -/
def runnerFixOutput (result : Option JSValue) : Option JSValue :=
  match result with
  | none => none
  | some v =>
      if (v.getField "output").truthy then some (v.getField "output") else none

/-- `FixResult` (domain/models.js): `fixedContent = none` models `null`. -/
structure FixResult where
  fixedContent : Option JSValue
  hasChanges : Bool
  deriving Repr

/-- `LintService.fix` (domain/lint-service.js) after the process resolved:
exit code 2 throws, otherwise `fixedContent := parsed.output || null` and
`hasChanges := fixedContent !== null`. -/
def lintServiceFixOutcome (jp : String → Option JSValue) (exitCode : Int)
    (stdout stderr : String) : Except String FixResult :=
  if exitCode = 2 then .error ("ESLint fix failed: " ++ stderr)
  else
    match parseOutputLS jp (some stdout) with
    | .error e => .error e
    | .ok parsed => .ok ⟨parsed.output, parsed.output.isSome⟩

/-! ## Executable resolution

`findESLint` / `ensureESLint` from eslint-runner.js.  The filesystem is
abstracted as `isExec : String → Bool` (`isExecutable`), and each embedding
returns the number of `isExecutable` calls performed alongside its result, so
"without touching the filesystem" is expressible. -/

def notFoundMessage : String :=
  "ESLint executable not found. Install ESLint in your project: npm install --save-dev eslint"

/-- The workspace-required rejection message of `_executeESLintProcess`
(eslint-runner.js, never reached from `lint`: `ensureESLint` throws first). -/
def workspaceRequiredMessageRunner : String :=
  "ESLint requires an open workspace. Please open a folder to use ESLint."

/-- `nova.path.join(workspacePath, p)`. -/
def joinPath (wp p : String) : String := wp ++ "/" ++ p

/-- `resolveExecutablePath`: absolute paths as-is, relative joined to the
workspace. -/
def resolveExecutablePath (wp p : String) : String :=
  if p.startsWith "/" then p else joinPath wp p

/-- `ESLintRunner.findESLint()`: configured path first, then the two fixed
candidates.  Returns the found path (or `none`) and the number of
`isExecutable` filesystem checks performed. -/
def findESLint (workspacePath configuredPath : Option String)
    (isExec : String → Bool) : Option String × Nat :=
  match workspacePath with
  | none => (none, 0)
  | some wp =>
      let viaCfg : Option String × Nat :=
        match configuredPath with
        | some cp =>
            if cp = "" then (none, 0)
            else
              let full := resolveExecutablePath wp cp
              if isExec full then (some full, 1) else (none, 1)
        | none => (none, 0)
      match viaCfg with
      | (some p, n) => (some p, n)
      | (none, n) =>
          let c1 := joinPath wp "node_modules/.bin/eslint"
          if isExec c1 then (some c1, n + 1)
          else
            let c2 := joinPath wp "node_modules/eslint/bin/eslint.js"
            if isExec c2 then (some c2, n + 2) else (none, n + 2)

/-- `ESLintRunner.ensureESLint()` with an empty path cache: runs `findESLint`
and throws the not-found `Error` when it returns `null`. -/
def ensureESLint (workspacePath configuredPath : Option String)
    (isExec : String → Bool) : Except JSError String × Nat :=
  match findESLint workspacePath configuredPath isExec with
  | (some p, n) => (.ok p, n)
  | (none, n) => (.error (.plainE notFoundMessage), n)

/-- `LintService.getESLintPath` (domain/lint-service.js), cache-miss path:
workspace check, then configured executable path, then the single
`node_modules/.bin/eslint` candidate via `fileSystemPort.exists`.  Returns
the outcome and the number of filesystem existence checks performed. -/
def getESLintPathLS (workspacePath executablePathCfg : Option String)
    (existsCheck : String → Bool) : Except JSError String × Nat :=
  match workspacePath with
  | none => (.error (.plainE "ESLint requires a workspace to be open"), 0)
  | some wp =>
      let fallback : Except JSError String × Nat :=
        let dp := wp ++ "/node_modules/.bin/eslint"
        if existsCheck dp then (.ok dp, 1)
        else (.error (.plainE "ESLint executable not found"), 1)
      match executablePathCfg with
      | some ep => if ep = "" then fallback else (.ok ep, 0)
      | none => fallback

/-! ## Settle-once guard of `_executeESLintProcess` (eslint-runner.js)

The promise executor's closure state: `settled` is the double-settlement
guard, `timerActive` tracks whether the kill timeout is still pending
(`cleanup()` clears it), and the two counters record how many times
`resolve` / `reject` were invoked.  Spawn failure (`process.start()` throws)
happens synchronously before any handler can run, so it is modelled in the
initial state: when it occurs no exit/timeout/stdin handler is ever
registered (`started = false`). -/

structure ExecState where
  started : Bool
  settled : Bool
  timerActive : Bool
  resolveCount : Nat
  rejectCount : Nat
  deriving Repr, DecidableEq

def ExecState.settleCount (s : ExecState) : Nat :=
  s.resolveCount + s.rejectCount

/-- State after the synchronous body of `_executeESLintProcess` ran:
`spawnOk = false` is the `catch` around `process.start()` (settles once by
rejecting, no timer ever created). -/
def execInit (spawnOk : Bool) : ExecState :=
  if spawnOk then ⟨true, false, true, 0, 0⟩ else ⟨false, true, false, 0, 1⟩

/-- Asynchronous termination signals: process exit (`resolves` abstracts
whether the exit handler resolves or rejects, cf. `exitSettlement`), expiry
of the kill timeout, and failure of the stdin writer. -/
inductive ExecSignal where
  | exitSig (resolves : Bool)
  | timeoutSig
  | stdinErrSig
  deriving Repr, DecidableEq

/-- One handler invocation.  `onDidExit` runs `cleanup()` first and then
checks `settled`; the timeout callback only runs while the timer is pending
and checks `settled` before settling; the stdin `catch` checks `settled`
before settling. -/
def execStep (s : ExecState) (sig : ExecSignal) : ExecState :=
  if !s.started then s
  else
    match sig with
    | .exitSig r =>
        let s1 := { s with timerActive := false }
        if s1.settled then s1
        else if r then
          { s1 with settled := true, resolveCount := s1.resolveCount + 1 }
        else { s1 with settled := true, rejectCount := s1.rejectCount + 1 }
    | .timeoutSig =>
        if !s.timerActive then s
        else if s.settled then { s with timerActive := false }
        else
          { s with settled := true, timerActive := false,
                   rejectCount := s.rejectCount + 1 }
    | .stdinErrSig =>
        if s.settled then s
        else
          { s with settled := true, timerActive := false,
                   rejectCount := s.rejectCount + 1 }

def execRun (spawnOk : Bool) (sigs : List ExecSignal) : ExecState :=
  sigs.foldl execStep (execInit spawnOk)

/-! ## Diagnostic request coordinator (EslintProvider.provideIssues)

State of one `ESLintProvider` instance.  `pendingLints` is the per-editor
WeakMap, `pendingTimeouts` / `pendingResolvers` / `activeLints` the
like-named sets and maps, and `timers` records every `setTimeout` callback
created by `provideIssues` together with its closure data.  `resolvedEmpty`
/ `resolvedReal` / `inFlight` / `lintStarts` are observables: which request
promises have been resolved (with an empty result vs. the lint's own
result), which lints are executing, and how many lints were started. -/

structure PendingEntry where
  requestId : Nat
  timeout : Nat
  deriving Repr, DecidableEq

structure TimerInfo where
  editorId : Nat
  uri : String
  requestId : Nat
  cancelled : Bool
  fired : Bool
  deriving Repr, DecidableEq

structure ProvState where
  nextRequestId : Nat
  nextTimerId : Nat
  pendingLints : List (Nat × PendingEntry)
  pendingTimeouts : List Nat
  pendingResolvers : List Nat
  activeLints : List String
  timers : List (Nat × TimerInfo)
  resolvedEmpty : List Nat
  resolvedReal : List Nat
  inFlight : List (Nat × String)
  lintStarts : Nat
  deriving Repr, DecidableEq

def initialProvState : ProvState :=
  ⟨0, 0, [], [], [], [], [], [], [], [], 0⟩

/-- Association-list lookup (`Map.get` / `WeakMap.get`). -/
def lookupA {α : Type} (l : List (Nat × α)) (k : Nat) : Option α :=
  (l.find? (fun p => p.1 = k)).map (·.2)

/-- Association-list update (`Map.set` / `WeakMap.set`). -/
def setA {α : Type} (l : List (Nat × α)) (k : Nat) (v : α) :
    List (Nat × α) :=
  (k, v) :: l.filter (fun p => p.1 ≠ k)

/-- `resolveRequest(requestId, issues)`: resolves and removes the pending
resolver if one is registered, otherwise does nothing.  `real = true` records
a resolution with the executed lint's own result. -/
def resolveRequest (s : ProvState) (rid : Nat) (real : Bool) : ProvState :=
  if rid ∈ s.pendingResolvers then
    { s with
      pendingResolvers := s.pendingResolvers.filter (· ≠ rid)
      resolvedEmpty := if real then s.resolvedEmpty else rid :: s.resolvedEmpty
      resolvedReal := if real then rid :: s.resolvedReal else s.resolvedReal }
  else s

/-- `clearTimeout(tid)`. -/
def markCancelled (timers : List (Nat × TimerInfo)) (tid : Nat) :
    List (Nat × TimerInfo) :=
  timers.map fun p =>
    if p.1 = tid then (p.1, { p.2 with cancelled := true }) else p

def markFired (timers : List (Nat × TimerInfo)) (tid : Nat) :
    List (Nat × TimerInfo) :=
  timers.map fun p =>
    if p.1 = tid then (p.1, { p.2 with fired := true }) else p

/-- The synchronous part of `provideIssues(editor)`: the disabled check, the
supersession of a pending debounce for the same editor, and the registration
of the new request, resolver, debounce timer and pending-lint entry. -/
def provideStep (s : ProvState) (editorId : Nat) (uri : String)
    (enabled : Bool) : ProvState :=
  if !enabled then s
  else
    let s1 :=
      match lookupA s.pendingLints editorId with
      | some pending =>
          let s' :=
            { s with
              timers := markCancelled s.timers pending.timeout
              pendingTimeouts := s.pendingTimeouts.filter (· ≠ pending.timeout) }
          resolveRequest s' pending.requestId false
      | none => s
    let rid := s1.nextRequestId
    let tid := s1.nextTimerId
    { s1 with
      nextRequestId := rid + 1
      nextTimerId := tid + 1
      pendingResolvers := rid :: s1.pendingResolvers
      timers := (tid, ⟨editorId, uri, rid, false, false⟩) :: s1.timers
      pendingTimeouts := tid :: s1.pendingTimeouts
      pendingLints := setA s1.pendingLints editorId ⟨rid, tid⟩ }

/-- The head of the debounce timer's callback: the fired timer is removed
from `pendingTimeouts` (and marked fired, so it cannot run twice). -/
def fireCleanup (s : ProvState) (tid : Nat) : ProvState :=
  { s with
    timers := markFired s.timers tid
    pendingTimeouts := s.pendingTimeouts.filter (· ≠ tid) }

/-- The debounce timer's callback: validity check of the editor's document,
the active-lint guard, and otherwise marking the URI active and starting the
lint.  A cancelled or already-fired timer never runs. -/
def fireStep (s : ProvState) (tid : Nat) (docOpen : Bool) : ProvState :=
  match lookupA s.timers tid with
  | none => s
  | some t =>
      if t.cancelled || t.fired then s
      else if !docOpen then resolveRequest (fireCleanup s tid) t.requestId false
      else if t.uri ∈ s.activeLints then
        resolveRequest (fireCleanup s tid) t.requestId false
      else
        { fireCleanup s tid with
          activeLints := t.uri :: s.activeLints
          inFlight := (t.requestId, t.uri) :: s.inFlight
          lintStarts := s.lintStarts + 1 }

/-- Completion of an executing lint: on success the request is resolved with
the lint's issues, on failure `handleError` runs and the request is resolved
empty; the `finally` block removes the URI from the active-lint set either
way. -/
def completeStep (s : ProvState) (rid : Nat) (ok : Bool) : ProvState :=
  match lookupA s.inFlight rid with
  | none => s
  | some uri =>
      let s1 := resolveRequest s rid ok
      { s1 with
        activeLints := s1.activeLints.filter (· ≠ uri)
        inFlight := s1.inFlight.filter (fun p => p.1 ≠ rid) }

inductive ProvEvent where
  | provide (editorId : Nat) (uri : String) (enabled : Bool)
  | fire (tid : Nat) (docOpen : Bool)
  | complete (rid : Nat) (ok : Bool)
  deriving Repr, DecidableEq

def provStep (s : ProvState) (e : ProvEvent) : ProvState :=
  match e with
  | .provide editorId uri enabled => provideStep s editorId uri enabled
  | .fire tid docOpen => fireStep s tid docOpen
  | .complete rid ok => completeStep s rid ok

def provRun (events : List ProvEvent) : ProvState :=
  events.foldl provStep initialProvState

/-- The active-lint mutual-exclusion invariant: every in-flight lint's URI is
in the active set, and no two in-flight lints share a URI. -/
def ActiveInv (s : ProvState) : Prop :=
  (∀ p ∈ s.inFlight, p.2 ∈ s.activeLints) ∧
    s.inFlight.Pairwise (fun p q => p.2 ≠ q.2)

/-! ## Fix-on-save cycle (FixOnSaveHandler.js)

One save-triggered fix cycle for a single editor, as an interleaving state
machine.  The cycle's `async` body is cut at its suspension points into
atomic segments, tracked by `pc`:

  0 = not yet triggered; 1 = awaiting `runner.fix`; 2 = awaiting
  `editor.edit`; 3 = edit returned, settle timer created; 4 = awaiting
  `editor.save`; 5 = save resolved, save-complete timer created; 9 = the
  async continuation has finished.

Timer identities are fixed: 0 = failsafe (created by `startFixing`),
1 = edit-settle, 2 = save-complete.  `tracked` records whether the timer was
recorded in the editor's `fixingEditors` entry at creation time
(`startFixing` stores the failsafe; `addPendingTimeout` pushes the other two
only when the entry still exists).  `fixing` is the `fixingEditors` entry;
`fixing = none` is the Idle state.  `aborted` records that the settle
callback observed buffer content differing from the fixed text and skipped
the save. -/

structure TimerFlags where
  created : Bool
  cleared : Bool
  fired : Bool
  tracked : Bool
  deriving Repr, DecidableEq

structure FixingEntry where
  failsafe : Nat
  pending : List Nat
  deriving Repr, DecidableEq

structure FixCycleState where
  pc : Nat
  fixing : Option FixingEntry
  fTimer : TimerFlags
  eTimer : TimerFlags
  tTimer : TimerFlags
  fixedContent : Option String
  editInvoked : Bool
  saveInvoked : Bool
  aborted : Bool
  deriving Repr, DecidableEq

def fixInit : FixCycleState :=
  ⟨0, none, ⟨false, false, false, false⟩, ⟨false, false, false, false⟩,
    ⟨false, false, false, false⟩, none, false, false, false⟩

/-- `clearTimeout` on one of the cycle's timer ids. -/
def clearTimerId (s : FixCycleState) (id : Nat) : FixCycleState :=
  if id = 0 then { s with fTimer := { s.fTimer with cleared := true } }
  else if id = 1 then { s with eTimer := { s.eTimer with cleared := true } }
  else if id = 2 then { s with tTimer := { s.tTimer with cleared := true } }
  else s

/-- `stopFixing(editor)`: clears the failsafe and every pending timeout
recorded in the editor's entry, then deletes the entry. -/
def stopFixing (s : FixCycleState) : FixCycleState :=
  match s.fixing with
  | none => { s with fixing := none }
  | some st =>
      let s1 := clearTimerId s st.failsafe
      let s2 := st.pending.foldl clearTimerId s1
      { s2 with fixing := none }

/-- `addPendingTimeout(editor, id)`: pushes onto the entry's pending list
only when the entry still exists. -/
def addPendingTimeout (s : FixCycleState) (id : Nat) : FixCycleState :=
  match s.fixing with
  | some st => { s with fixing := some { st with pending := st.pending ++ [id] } }
  | none => s

/-- Scheduler events: resumption of the async body's segments (each carrying
the values the segment reads from its environment) and timer firings. -/
inductive FixEvent where
  | trigger
  | fixResult (r : Option String) (currentContent : String)
  | fixError
  | editDone
  | editError
  | fireF
  | fireE (docOpen : Bool) (contentAfterSettle : String)
  | saveOk
  | saveError
  | fireT
  deriving Repr, DecidableEq

def fixStep (s : FixCycleState) (e : FixEvent) : FixCycleState :=
  match e with
  | .trigger =>
      -- the save handler's isFixing guard, then startFixing
      if s.pc == 0 && s.fixing.isNone then
        { s with pc := 1, fixing := some ⟨0, []⟩,
                 fTimer := ⟨true, false, false, true⟩ }
      else s
  | .fixResult r c =>
      -- continuation after `await this.provider.runner.fix(filePath)`;
      -- `c` is the buffer content read by getTextInRange
      if s.pc == 1 then
        match r with
        | none => { stopFixing s with pc := 9 }
        | some fixed =>
            if c = fixed then { stopFixing s with pc := 9 }
            else
              { s with pc := 2, fixedContent := some fixed,
                       editInvoked := true }
      else s
  | .fixError =>
      -- `runner.fix` rejected: the catch block
      if s.pc == 1 then { stopFixing s with pc := 9 } else s
  | .editDone =>
      -- continuation after `await editor.edit(...)`: creates the
      -- edit-settle timer and calls addPendingTimeout
      if s.pc == 2 then
        let s1 := { s with pc := 3,
                           eTimer := ⟨true, false, false, s.fixing.isSome⟩ }
        addPendingTimeout s1 1
      else s
  | .editError =>
      -- `editor.edit` rejected: the catch block
      if s.pc == 2 then { stopFixing s with pc := 9 } else s
  | .fireF =>
      -- the failsafe timeout fires (only if never cleared)
      if s.fTimer.created && !s.fTimer.cleared && !s.fTimer.fired then
        stopFixing { s with fTimer := { s.fTimer with fired := true } }
      else s
  | .fireE docOpen c =>
      -- the edit-settle timeout fires: document validity check, the
      -- content re-read and comparison, then `editor.save()`
      if s.eTimer.created && !s.eTimer.cleared && !s.eTimer.fired then
        let s1 := { s with eTimer := { s.eTimer with fired := true } }
        if !docOpen then { stopFixing s1 with pc := 9 }
        else
          match s1.fixedContent with
          | some fixed =>
              if c ≠ fixed then
                { stopFixing s1 with pc := 9, aborted := true }
              else { s1 with pc := 4, saveInvoked := true }
          | none => s1
      else s
  | .saveOk =>
      -- `editor.save()` resolved: creates the save-complete timer
      if s.pc == 4 then
        let s1 := { s with pc := 5,
                           tTimer := ⟨true, false, false, s.fixing.isSome⟩ }
        addPendingTimeout s1 2
      else s
  | .saveError =>
      -- `editor.save()` rejected
      if s.pc == 4 then { stopFixing s with pc := 9 } else s
  | .fireT =>
      -- the save-complete timeout fires
      if s.tTimer.created && !s.tTimer.cleared && !s.tTimer.fired then
        { stopFixing { s with tTimer := { s.tTimer with fired := true } } with
          pc := 9 }
      else s

def fixRun (events : List FixEvent) : FixCycleState :=
  events.foldl fixStep fixInit

/-! ## Auxiliary definitions used by the statements and proofs -/

/-- A concrete `JSON.parse` oracle recognising just the inputs the concrete
instantiations below use. -/
def jpWitness : String → Option JSValue :=
  fun t =>
    if t = "[]" then some (.arrV [])
    else if t = "[[]]" then some (.arrV [.arrV []])
    else none

/-- A `JSON.parse` oracle for a fix dry-run whose first result element
carries `output: ""`. -/
def jpEmptyOutput : String → Option JSValue :=
  fun _ => some (.arrV [.objV [("output", .strV "")]])

/-- Settle-once bookkeeping invariant for `_executeESLintProcess`: the
settlement counters agree with the `settled` flag, and while the invocation
is live its kill timer is still pending. -/
def ExecGood (s : ExecState) : Prop :=
  (s.settled = true → s.settleCount = 1) ∧
    (s.settled = false → s.settleCount = 0) ∧
    (s.started = true → s.settled = false → s.timerActive = true)

/-- Timer-tracking invariant of a fix-on-save cycle: when the cycle is Idle
every tracked timer has been cleared or has fired, and while it is Fixing
every tracked, still-live timer is recorded in the `fixingEditors` entry
(the failsafe under `failsafe`, the others in `pending`). -/
def FixInv (s : FixCycleState) : Prop :=
  match s.fixing with
  | none =>
      (s.fTimer.tracked = true → s.fTimer.cleared = true ∨ s.fTimer.fired = true) ∧
        (s.eTimer.tracked = true → s.eTimer.cleared = true ∨ s.eTimer.fired = true) ∧
        (s.tTimer.tracked = true → s.tTimer.cleared = true ∨ s.tTimer.fired = true)
  | some st =>
      st.failsafe = 0 ∧
        (s.eTimer.tracked = true →
          s.eTimer.cleared = true ∨ s.eTimer.fired = true ∨ 1 ∈ st.pending) ∧
        (s.tTimer.tracked = true →
          s.tTimer.cleared = true ∨ s.tTimer.fired = true ∨ 2 ∈ st.pending)

/-- Abort invariant of a fix-on-save cycle: `editor.save()` is only reached
from a live settle callback (so a state with the save invoked has a fired
settle timer and a continuation past the early segments), and once the
content-mismatch abort has happened the cycle is Idle, the settle timer has
fired, the continuation is finished, and no save was or can be invoked. -/
def AbortInv (s : FixCycleState) : Prop :=
  (s.saveInvoked = true →
      s.eTimer.fired = true ∧ s.pc ≠ 0 ∧ s.pc ≠ 1 ∧ s.pc ≠ 2) ∧
    (s.aborted = true →
      s.saveInvoked = false ∧ s.fixing = none ∧ s.eTimer.fired = true ∧
        s.pc = 9)

/-- Invariant of a cycle whose `runner.fix` only ever produced the no-fixes
outcome: the continuation never passes the edit segment, so no edit and no
save happen and neither follow-up timer is created. -/
def QuietInv (s : FixCycleState) : Prop :=
  s.editInvoked = false ∧ s.saveInvoked = false ∧
    s.eTimer.created = false ∧ s.tTimer.created = false ∧
    (s.pc = 0 ∨ s.pc = 1 ∨ s.pc = 9)

/-- `n` rapid diagnostic requests for the same editor instance (id 0), all
arriving before any debounce timer fires. -/
def debounceEvents (n : Nat) (uri : String) : List ProvEvent :=
  List.replicate n (.provide 0 uri true)

/-- Closed form of the provider state after `m + 1` diagnostic requests for
editor 0 within the debounce window: requests `0..m-1` superseded (timers
cancelled, promises resolved empty), request `m` still debouncing. -/
def debounceStateS (m : Nat) (uri : String) : ProvState :=
  { nextRequestId := m + 1
    nextTimerId := m + 1
    pendingLints := [(0, ⟨m, m⟩)]
    pendingTimeouts := [m]
    pendingResolvers := [m]
    activeLints := []
    timers :=
      ((List.range (m + 1)).reverse).map
        (fun i => (i, ⟨0, uri, i, decide (i ≠ m), false⟩))
    resolvedEmpty := (List.range m).reverse
    resolvedReal := []
    inFlight := []
    lintStarts := 0 }

/-- The full scenario of `n` rapid requests: the surviving debounce timer
fires (with the document still open) and the lint completes successfully. -/
def debounceFullTrace (n : Nat) (uri : String) : ProvState :=
  completeStep
    (fireStep (provRun (debounceEvents n uri)) (n - 1) true) (n - 1) true

/-! ## Basic lemmas -/

theorem exists_of_isString {v : JSValue} (h : v.isString = true) :
    ∃ s, v = .strV s := by
  cases v <;> first | exact ⟨_, rfl⟩ | simp [JSValue.isString] at h

theorem exists_of_isNumber {v : JSValue} (h : v.isNumber = true) :
    ∃ n, v = .numV n := by
  cases v <;> first | exact ⟨_, rfl⟩ | simp [JSValue.isNumber] at h

@[simp]
theorem mkMsgRecord_getField_message (msg line col sv rid el ec : JSValue) :
    (mkMsgRecord msg line col sv rid el ec).getField "message" = msg := rfl

@[simp]
theorem mkMsgRecord_getField_line (msg line col sv rid el ec : JSValue) :
    (mkMsgRecord msg line col sv rid el ec).getField "line" = line := rfl

@[simp]
theorem mkMsgRecord_getField_column (msg line col sv rid el ec : JSValue) :
    (mkMsgRecord msg line col sv rid el ec).getField "column" = col := rfl

@[simp]
theorem mkMsgRecord_getField_severity (msg line col sv rid el ec : JSValue) :
    (mkMsgRecord msg line col sv rid el ec).getField "severity" = sv := rfl

@[simp]
theorem mkMsgRecord_getField_ruleId (msg line col sv rid el ec : JSValue) :
    (mkMsgRecord msg line col sv rid el ec).getField "ruleId" = rid := rfl

@[simp]
theorem mkMsgRecord_getField_endLine (msg line col sv rid el ec : JSValue) :
    (mkMsgRecord msg line col sv rid el ec).getField "endLine" = el := rfl

@[simp]
theorem mkMsgRecord_getField_endColumn (msg line col sv rid el ec : JSValue) :
    (mkMsgRecord msg line col sv rid el ec).getField "endColumn" = ec := rfl

/-! ## C8 -/

/-- C8: `convertESLintMessagesToIssues` maps severity 2 to `"error"`, 1 to
`"warning"` and any other severity value to `"info"`; it silently drops
every record lacking a string `message`, a numeric `line` or a numeric
`column`; and it maps the record
`{line:1, column:5, message:"m", severity:2, ruleId:"r", endLine:1,
endColumn:6}` exactly to
`{line:1, column:5, message:"m", severity:"error", code:"r", endLine:1,
endColumn:6}`. -/
theorem c8_convert_messages
    (msgV lineV colV sv ridV elV ecV : JSValue)
    (hm : msgV.isString = true) (hl : lineV.isNumber = true)
    (hc : colV.isNumber = true)
    (bad : JSValue)
    (hbad : (bad.getField "message").isString = false ∨
      (bad.getField "line").isNumber = false ∨
      (bad.getField "column").isNumber = false) :
    ((sv = .numV 2 →
        (convertOneMessage (mkMsgRecord msgV lineV colV sv ridV elV ecV)).map
            Issue.severity = some "error") ∧
      (sv = .numV 1 →
        (convertOneMessage (mkMsgRecord msgV lineV colV sv ridV elV ecV)).map
            Issue.severity = some "warning") ∧
      (sv ≠ .numV 1 → sv ≠ .numV 2 →
        (convertOneMessage (mkMsgRecord msgV lineV colV sv ridV elV ecV)).map
            Issue.severity = some "info")) ∧
      convertOneMessage bad = none ∧
      convertESLintMessagesToIssues
          (.arrV
            [mkMsgRecord (.strV "m") (.numV 1) (.numV 5) (.numV 2)
              (.strV "r") (.numV 1) (.numV 6)]) =
        [{ line := 1, column := 5, message := "m", severity := "error",
           code := some (.strV "r"), endLine := some 1,
           endColumn := some 6 }] := by
  obtain ⟨ms, rfl⟩ := exists_of_isString hm
  obtain ⟨ln, rfl⟩ := exists_of_isNumber hl
  obtain ⟨cl, rfl⟩ := exists_of_isNumber hc
  have hconv :
      convertOneMessage
          (mkMsgRecord (.strV ms) (.numV ln) (.numV cl) sv ridV elV ecV) =
        some
          { line := ln, column := cl, message := ms
            severity := severityOf sv
            code := if ridV.truthy then some ridV else none
            endLine := elV.asNumber, endColumn := ecV.asNumber } := by
    simp [convertOneMessage, JSValue.isString, JSValue.isNumber,
      JSValue.toNumber, JSValue.toStr]
  refine ⟨⟨?_, ?_, ?_⟩, ?_, ?_⟩
  · rintro rfl
    simp [hconv, severityOf]
  · rintro rfl
    simp [hconv, severityOf]
  · intro h1 h2
    rw [hconv]
    cases sv with
    | numV n =>
        have hn1 : n ≠ 1 := by rintro rfl; exact h1 rfl
        have hn2 : n ≠ 2 := by rintro rfl; exact h2 rfl
        simp [severityOf, hn1, hn2]
    | _ => simp [severityOf]
  · unfold convertOneMessage
    rw [if_pos hbad]
  · rfl

/-- C8 witness: the theorem applied to the round-trip record and to a record
with no fields at all. -/
theorem c8_convert_messages_witness :
    ((convertOneMessage
          (mkMsgRecord (.strV "m") (.numV 1) (.numV 5) (.numV 2) (.strV "r")
            (.numV 1) (.numV 6))).map Issue.severity = some "error") ∧
      convertOneMessage (.objV []) = none ∧
      convertESLintMessagesToIssues
          (.arrV
            [mkMsgRecord (.strV "m") (.numV 1) (.numV 5) (.numV 2)
              (.strV "r") (.numV 1) (.numV 6)]) =
        [{ line := 1, column := 5, message := "m", severity := "error",
           code := some (.strV "r"), endLine := some 1,
           endColumn := some 6 }] := by
  have h :=
    c8_convert_messages (.strV "m") (.numV 1) (.numV 5) (.numV 2) (.strV "r")
      (.numV 1) (.numV 6) rfl rfl rfl (.objV [])
      (Or.inl (by simp [JSValue.getField, JSValue.isString]))
  exact ⟨h.1.1 rfl, h.2.1, h.2.2⟩

/-! ## C7 -/

/-- C7: `LintService.parseOutput` yields an empty-messages result (not an
error) on a `null`, empty or all-whitespace stdout; on a non-empty,
non-whitespace string that `JSON.parse` cannot parse it yields a parse
failure, which is distinct from every successful (in particular the
empty-messages) result; and on `"[]"` it yields empty messages. -/
theorem c7_parse_output (jp : String → Option JSValue) (s : String)
    (hs : jsTrim s ≠ "") (hjp : jp s = none)
    (harr : jp "[]" = some (.arrV [])) :
    parseOutputLS jp none = .ok ⟨.arrV [], none⟩ ∧
      parseOutputLS jp (some "") = .ok ⟨.arrV [], none⟩ ∧
      parseOutputLS jp (some "   ") = .ok ⟨.arrV [], none⟩ ∧
      parseOutputLS jp (some s) = .error "Failed to parse ESLint output" ∧
      (∀ p : ParsedOutput, parseOutputLS jp (some s) ≠ .ok p) ∧
      parseOutputLS jp (some "[]") = .ok ⟨.arrV [], none⟩ := by
  have hne : s ≠ "" := by
    intro h
    subst h
    exact hs rfl
  have herr : parseOutputLS jp (some s) = .error "Failed to parse ESLint output" := by
    simp [parseOutputLS, hne, hs, hjp]
  refine ⟨rfl, rfl, ?_, herr, ?_, ?_⟩
  · rfl
  · intro p
    rw [herr]
    simp
  · simp [parseOutputLS, harr]

/-- C7 witness: the theorem at the oracle `jpWitness` and the concrete
inputs of the claim. -/
theorem c7_parse_output_witness :
    parseOutputLS jpWitness (some "not json") =
        .error "Failed to parse ESLint output" ∧
      parseOutputLS jpWitness (some "[]") = .ok ⟨.arrV [], none⟩ ∧
      parseOutputLS jpWitness none = .ok ⟨.arrV [], none⟩ ∧
      parseOutputLS jpWitness (some "") = .ok ⟨.arrV [], none⟩ := by
  have h := c7_parse_output jpWitness "not json" (by decide) rfl rfl
  exact ⟨h.2.2.2.1, h.2.2.2.2.2, h.1, h.2.1⟩

/-! ## C6 -/

/-- C6 counterexample: exit code 2 with stderr `"boom"` makes the
`onDidExit` handler of `_executeESLintProcess` reject with a plain `Error`
(`new Error(...)`), not with an `ESLintConfigError`-class error, so the
claim's "fails with a ConfigError-class error" is false on the code (the
provider's `instanceof ESLintConfigError` classification never matches). -/
theorem c6_exit_code_counterexample :
    exitSettlement (fun _ => none) 2 "" "boom" =
        .error (.plainE "ESLint failed (exit 2): boom") ∧
      isConfigErrorClass (exitSettlement (fun _ => none) 2 "" "boom") =
        false := by
  exact ⟨rfl, rfl⟩

/-- C6 amended: exit codes 0 and 1 are success — exit code 1 with valid JSON
stdout does not reject and resolves with the parsed first result — and any
other exit code rejects with a plain `Error` (not an `ESLintConfigError`
instance) whose message carries the tool's stderr text verbatim as
`ESLint failed (exit N): <stderr>` when stderr is non-empty. -/
theorem c6_exit_code_amended
    (jp : String → Option JSValue) (ec : Int) (stdout stderr : String)
    (first : JSValue) (rest : List JSValue)
    (h0 : ec ≠ 0) (h1 : ec ≠ 1) (hne : stderr ≠ "")
    (hjson : jp stdout = some (.arrV (first :: rest))) :
    exitSettlement jp 0 stdout stderr = .ok first ∧
      exitSettlement jp 1 stdout stderr = .ok first ∧
      exitSettlement jp ec stdout stderr =
        .error
          (.plainE
            ("ESLint failed (exit " ++ toString ec ++ "): " ++ stderr)) ∧
      isConfigErrorClass (exitSettlement jp ec stdout stderr) = false := by
  have herr : exitSettlement jp ec stdout stderr =
      .error
        (.plainE ("ESLint failed (exit " ++ toString ec ++ "): " ++ stderr)) := by
    simp [exitSettlement, h0, h1, hne]
  refine ⟨?_, ?_, herr, ?_⟩
  · simp [exitSettlement, hjson]
  · simp [exitSettlement, hjson]
  · rw [herr]
    rfl

/-- C6 witness: the amended theorem at exit code 2, stderr `"boom"` and the
JSON oracle `jpWitness` on the stdout `"[[]]"`. -/
theorem c6_exit_code_amended_witness :
    exitSettlement jpWitness 1 "[[]]" "boom" = .ok (.arrV []) ∧
      exitSettlement jpWitness 2 "[[]]" "boom" =
        .error (.plainE "ESLint failed (exit 2): boom") := by
  have h :=
    c6_exit_code_amended jpWitness 2 "[[]]" "boom" (.arrV []) []
      (by decide) (by decide) (by decide) rfl
  exact ⟨h.2.1, h.2.2.1⟩

/-! ## C9 -/

/-- C9 counterexample: with no workspace open, `ESLintRunner`'s executable
resolution (`ensureESLint` / `findESLint`, the path `lint()` takes) performs
no filesystem check but fails with the NotFound error — the same plain
`Error` produced when no candidate exists — not with the distinct
workspace-required failure (that message exists only in
`_executeESLintProcess`, which `ensureESLint` prevents from being
reached). -/
theorem c9_no_workspace_counterexample :
    ensureESLint none (some "/abs/eslint") (fun _ => true) =
        (.error (.plainE notFoundMessage), 0) ∧
      ensureESLint (some "/w") none (fun _ => false) =
        (.error (.plainE notFoundMessage), 2) ∧
      notFoundMessage ≠ workspaceRequiredMessageRunner := by
  refine ⟨rfl, rfl, by decide⟩

/-- C9 amended: in `LintService.getESLintPath` the absence of a workspace
path fails with the distinct workspace-required error before any candidate
is attempted and with zero filesystem checks; in `ESLintRunner`, absence of
a workspace makes `findESLint` return `null` without touching the
filesystem, and `ensureESLint` then surfaces the NotFound failure (not a
workspace-required one). -/
theorem c9_no_workspace_amended (cfg : Option String) (fs : String → Bool) :
    getESLintPathLS none cfg fs =
        (.error (.plainE "ESLint requires a workspace to be open"), 0) ∧
      findESLint none cfg fs = (none, 0) ∧
      ensureESLint none cfg fs = (.error (.plainE notFoundMessage), 0) := by
  exact ⟨rfl, rfl, rfl⟩

/-! ## C3 -/

theorem execStep_not_started (sigs : List ExecSignal) (s : ExecState)
    (h : s.started = false) : sigs.foldl execStep s = s := by
  induction sigs with
  | nil => rfl
  | cons a rest ih =>
      have : execStep s a = s := by simp [execStep, h]
      rw [List.foldl_cons, this, ih]

theorem execStep_started (s : ExecState) (sig : ExecSignal) :
    (execStep s sig).started = s.started := by
  obtain ⟨st, se, ta, rc, jc⟩ := s
  cases sig with
  | exitSig r => cases r <;> cases st <;> cases se <;> cases ta <;> rfl
  | timeoutSig => cases st <;> cases se <;> cases ta <;> rfl
  | stdinErrSig => cases st <;> cases se <;> cases ta <;> rfl

theorem execStep_good (s : ExecState) (sig : ExecSignal) (h : ExecGood s) :
    ExecGood (execStep s sig) := by
  obtain ⟨st, se, ta, rc, jc⟩ := s
  unfold ExecGood ExecState.settleCount at h ⊢
  cases sig with
  | exitSig r =>
      cases r <;> cases st <;> cases se <;> cases ta <;>
        simp_all [execStep]
  | timeoutSig =>
      cases st <;> cases se <;> cases ta <;> simp_all [execStep]
  | stdinErrSig =>
      cases st <;> cases se <;> cases ta <;> simp_all [execStep]

theorem execStep_settles (s : ExecState) (sig : ExecSignal) (h : ExecGood s)
    (hst : s.started = true) : (execStep s sig).settled = true := by
  obtain ⟨st, se, ta, rc, jc⟩ := s
  unfold ExecGood ExecState.settleCount at h
  cases sig with
  | exitSig r =>
      cases r <;> cases st <;> cases se <;> cases ta <;>
        simp_all [execStep]
  | timeoutSig =>
      cases st <;> cases se <;> cases ta <;> simp_all [execStep]
  | stdinErrSig =>
      cases st <;> cases se <;> cases ta <;> simp_all [execStep]

theorem execStep_settled_mono (s : ExecState) (sig : ExecSignal)
    (h : s.settled = true) : (execStep s sig).settled = true := by
  obtain ⟨st, se, ta, rc, jc⟩ := s
  cases sig with
  | exitSig r =>
      cases r <;> cases st <;> cases se <;> cases ta <;> simp_all [execStep]
  | timeoutSig =>
      cases st <;> cases se <;> cases ta <;> simp_all [execStep]
  | stdinErrSig =>
      cases st <;> cases se <;> cases ta <;> simp_all [execStep]

theorem execFoldl_settled (sigs : List ExecSignal) (s : ExecState)
    (h : s.settled = true) : (sigs.foldl execStep s).settled = true := by
  induction sigs generalizing s with
  | nil => exact h
  | cons a rest ih => exact ih _ (execStep_settled_mono s a h)

theorem execFoldl_good (sigs : List ExecSignal) (s : ExecState)
    (h : ExecGood s) : ExecGood (sigs.foldl execStep s) := by
  induction sigs generalizing s with
  | nil => exact h
  | cons a rest ih => exact ih _ (execStep_good s a h)

/-- C3: one invocation of `_executeESLintProcess` settles its promise
exactly once, however many termination signals (exit, timeout expiry,
stdin-write failure) arrive and in whatever order, and also when
`process.start()` throws (spawn failure settles once immediately and no
handler ever runs again). -/
theorem c3_settle_once (spawnOk : Bool) (sigs : List ExecSignal)
    (h : spawnOk = false ∨ sigs ≠ []) :
    (execRun spawnOk sigs).settleCount = 1 := by
  cases spawnOk with
  | false =>
      rw [execRun, execStep_not_started sigs _ rfl]
      rfl
  | true =>
      rcases h with h | h
      · cases h
      · have hgood : ExecGood (execInit true) := by
          refine ⟨fun h' => by simp [execInit] at h', fun _ => rfl, fun _ _ => rfl⟩
        match sigs, h with
        | a :: rest, _ =>
            have h1 : (execStep (execInit true) a).settled = true :=
              execStep_settles _ a hgood rfl
            have h2 : ExecGood (rest.foldl execStep (execStep (execInit true) a)) :=
              execFoldl_good rest _ (execStep_good _ a hgood)
            have h3 : (rest.foldl execStep (execStep (execInit true) a)).settled = true :=
              execFoldl_settled rest _ h1
            exact h2.1 h3

/-- C3 witness: the theorem at a spawn failure with no further signals, and
at a successful spawn whose process exits once. -/
theorem c3_settle_once_witness :
    (execRun false []).settleCount = 1 ∧
      (execRun true [.exitSig true]).settleCount = 1 ∧
      (execRun true [.timeoutSig, .exitSig true, .stdinErrSig]).settleCount = 1 := by
  exact ⟨c3_settle_once false [] (Or.inl rfl),
    c3_settle_once true [.exitSig true] (Or.inr (by simp)),
    c3_settle_once true [.timeoutSig, .exitSig true, .stdinErrSig]
      (Or.inr (by simp))⟩

/-! ## C1 -/

theorem lookupA_mem {α : Type} {l : List (Nat × α)} {k : Nat} {v : α}
    (h : lookupA l k = some v) : (k, v) ∈ l := by
  unfold lookupA at h
  cases hf : l.find? (fun p => p.1 = k) with
  | none => rw [hf] at h; cases h
  | some p =>
      rw [hf] at h
      obtain ⟨a, b⟩ := p
      have hk : a = k := by simpa using List.find?_some hf
      have hv : b = v := by simpa using h
      subst hk
      subst hv
      exact List.mem_of_find?_eq_some hf

@[simp]
theorem resolveRequest_inFlight (s : ProvState) (r : Nat) (b : Bool) :
    (resolveRequest s r b).inFlight = s.inFlight := by
  unfold resolveRequest; split <;> rfl

@[simp]
theorem resolveRequest_activeLints (s : ProvState) (r : Nat) (b : Bool) :
    (resolveRequest s r b).activeLints = s.activeLints := by
  unfold resolveRequest; split <;> rfl

@[simp]
theorem resolveRequest_lintStarts (s : ProvState) (r : Nat) (b : Bool) :
    (resolveRequest s r b).lintStarts = s.lintStarts := by
  unfold resolveRequest; split <;> rfl

theorem provideStep_inFlight (s : ProvState) (ed : Nat) (uri : String)
    (en : Bool) : (provideStep s ed uri en).inFlight = s.inFlight := by
  unfold provideStep
  split
  · rfl
  · dsimp only
    split <;> simp

theorem provideStep_activeLints (s : ProvState) (ed : Nat) (uri : String)
    (en : Bool) : (provideStep s ed uri en).activeLints = s.activeLints := by
  unfold provideStep
  split
  · rfl
  · dsimp only
    split <;> simp

/-- C1: the active-lint guard gives mutual exclusion per document identity.
The invariant `ActiveInv` (at most one in-flight lint per URI) holds
initially and is preserved by every coordinator step; when a debounce timer
fires while its URI is already in the active-lint set, no lint is started
(`lintStarts` and the in-flight set are unchanged) and that request's
promise is resolved with the empty result; and when an executing lint
completes — with success or failure — its URI is removed from the
active-lint set. -/
theorem c1_active_lint_exclusion :
    ActiveInv initialProvState ∧
      (∀ s e, ActiveInv s → ActiveInv (provStep s e)) ∧
      (∀ s tid t, lookupA s.timers tid = some t → t.cancelled = false →
        t.fired = false → t.uri ∈ s.activeLints →
        t.requestId ∈ s.pendingResolvers →
        (fireStep s tid true).lintStarts = s.lintStarts ∧
          (fireStep s tid true).inFlight = s.inFlight ∧
          t.requestId ∈ (fireStep s tid true).resolvedEmpty) ∧
      (∀ s rid uri ok, lookupA s.inFlight rid = some uri →
        uri ∉ (completeStep s rid ok).activeLints) := by
  refine ⟨⟨by simp [initialProvState], by simp [initialProvState]⟩, ?_, ?_, ?_⟩
  · intro s e h
    obtain ⟨h1, h2⟩ := h
    cases e with
    | provide ed uri en =>
        constructor
        · intro p hp
          rw [provStep, provideStep_inFlight] at hp
          rw [provStep, provideStep_activeLints]
          exact h1 p hp
        · rw [provStep, provideStep_inFlight]
          exact h2
    | fire tid docOpen =>
        rw [provStep]
        unfold fireStep
        cases hf : lookupA s.timers tid with
        | none => exact ⟨h1, h2⟩
        | some t =>
            dsimp only
            split
            · exact ⟨h1, h2⟩
            · split
              · exact ⟨by simpa [fireCleanup] using h1,
                  by simpa [fireCleanup] using h2⟩
              · split
                · exact ⟨by simpa [fireCleanup] using h1,
                    by simpa [fireCleanup] using h2⟩
                · rename_i huri
                  constructor
                  · intro p hp
                    rcases List.mem_cons.mp hp with hp | hp
                    · subst hp
                      exact List.mem_cons_self _ _
                    · exact List.mem_cons_of_mem _ (h1 p hp)
                  · refine List.pairwise_cons.mpr ⟨?_, h2⟩
                    intro q hq heq
                    apply huri
                    have hq2 := h1 q hq
                    rw [← heq] at hq2
                    exact hq2
    | complete rid ok =>
        rw [provStep]
        unfold completeStep
        cases hf : lookupA s.inFlight rid with
        | none => exact ⟨h1, h2⟩
        | some uri =>
            have hmem : (rid, uri) ∈ s.inFlight := lookupA_mem hf
            dsimp only
            constructor
            · intro p hp
              simp only [resolveRequest_inFlight, resolveRequest_activeLints,
                List.mem_filter] at hp ⊢
              obtain ⟨hpmem, hprid⟩ := hp
              have hne : p ≠ (rid, uri) := by
                intro hcontra
                subst hcontra
                simp at hprid
              have hdiff : p.2 ≠ uri :=
                List.Pairwise.forall (fun x y hxy => hxy.symm) h2 hpmem hmem hne
              exact ⟨h1 p hpmem, by simpa using hdiff⟩
            · simp only [resolveRequest_inFlight]
              exact h2.sublist (List.filter_sublist _)
  · intro s tid t hf hc hfd hmem hres
    have hstep : fireStep s tid true =
        resolveRequest (fireCleanup s tid) t.requestId false := by
      unfold fireStep
      rw [hf]
      dsimp only
      rw [hc, hfd]
      rw [if_neg (by simp), if_neg (by simp), if_pos hmem]
    rw [hstep]
    refine ⟨by simp [fireCleanup], by simp [fireCleanup], ?_⟩
    unfold resolveRequest
    rw [if_pos (show t.requestId ∈ (fireCleanup s tid).pendingResolvers from hres)]
    simp
  · intro s rid uri ok hf
    unfold completeStep
    rw [hf]
    simp [List.mem_filter]

/-- C1 witness: two editor instances (ids 0 and 1) show the same URI; after
editor 0's timer fires and its lint is executing, editor 1's timer firing
starts no lint and resolves empty, and completion of the executing lint
removes the URI from the active set. -/
theorem c1_active_lint_exclusion_witness :
    (fireStep (provRun [.provide 0 "file:///a.js" true,
          .provide 1 "file:///a.js" true, .fire 0 true]) 1 true).lintStarts =
        (provRun [.provide 0 "file:///a.js" true,
          .provide 1 "file:///a.js" true, .fire 0 true]).lintStarts ∧
      (1 : Nat) ∈
        (fireStep (provRun [.provide 0 "file:///a.js" true,
          .provide 1 "file:///a.js" true, .fire 0 true]) 1 true).resolvedEmpty ∧
      "file:///a.js" ∉
        (completeStep (provRun [.provide 0 "file:///a.js" true,
          .provide 1 "file:///a.js" true, .fire 0 true]) 0 true).activeLints ∧
      ActiveInv (provStep initialProvState (.provide 0 "file:///a.js" true)) := by
  have h := c1_active_lint_exclusion
  have h3 :=
    h.2.2.1 (provRun [.provide 0 "file:///a.js" true,
      .provide 1 "file:///a.js" true, .fire 0 true]) 1
      ⟨1, "file:///a.js", 1, false, false⟩ (by decide) rfl rfl (by decide)
      (by decide)
  exact ⟨h3.1, h3.2.2,
    h.2.2.2 (provRun [.provide 0 "file:///a.js" true,
      .provide 1 "file:///a.js" true, .fire 0 true]) 0 "file:///a.js" true
      (by decide),
    h.2.1 initialProvState (.provide 0 "file:///a.js" true)
      ⟨by simp [initialProvState], by simp [initialProvState]⟩⟩

/-! ## C2 -/

theorem resolveRequest_pos (s : ProvState) (rid : Nat) (b : Bool)
    (h : rid ∈ s.pendingResolvers) :
    resolveRequest s rid b =
      { s with
        pendingResolvers := s.pendingResolvers.filter (· ≠ rid)
        resolvedEmpty := if b then s.resolvedEmpty else rid :: s.resolvedEmpty
        resolvedReal := if b then rid :: s.resolvedReal else s.resolvedReal } := by
  unfold resolveRequest
  rw [if_pos h]

theorem provideStep_some (s : ProvState) (ed : Nat) (uri : String)
    (p : PendingEntry) (h : lookupA s.pendingLints ed = some p) :
    provideStep s ed uri true =
      { resolveRequest
          { s with
            timers := markCancelled s.timers p.timeout
            pendingTimeouts := s.pendingTimeouts.filter (· ≠ p.timeout) }
          p.requestId false with
        nextRequestId := s.nextRequestId + 1
        nextTimerId := s.nextTimerId + 1
        pendingResolvers :=
          s.nextRequestId ::
            (resolveRequest
                { s with
                  timers := markCancelled s.timers p.timeout
                  pendingTimeouts := s.pendingTimeouts.filter (· ≠ p.timeout) }
                p.requestId false).pendingResolvers
        timers :=
          (s.nextTimerId, ⟨ed, uri, s.nextRequestId, false, false⟩) ::
            markCancelled s.timers p.timeout
        pendingTimeouts :=
          s.nextTimerId :: s.pendingTimeouts.filter (· ≠ p.timeout)
        pendingLints :=
          setA s.pendingLints ed ⟨s.nextRequestId, s.nextTimerId⟩ } := by
  unfold provideStep
  rw [if_neg (by simp), h]
  dsimp only
  unfold resolveRequest
  split <;> rfl

theorem range_reverse_succ (n : Nat) :
    (List.range (n + 1)).reverse = n :: (List.range n).reverse := by
  rw [List.range_succ, List.reverse_append]
  rfl

theorem debounce_step (m : Nat) (uri : String) :
    provideStep (debounceStateS m uri) 0 uri true =
      debounceStateS (m + 1) uri := by
  rw [provideStep_some (debounceStateS m uri) 0 uri ⟨m, m⟩ rfl]
  rw [resolveRequest_pos _ _ _ (by simp [debounceStateS])]
  unfold debounceStateS
  simp [setA, range_reverse_succ]
  unfold markCancelled
  rw [List.map_cons]
  congr 1
  · simp
  · rw [List.map_reverse, List.map_map]
    apply congrArg List.reverse
    apply List.map_congr_left
    intro i hi
    have hilt : i < m := by simpa using hi
    have h1 : i ≠ m := by omega
    have h2 : i ≠ m + 1 := by omega
    simp [h1, h2]

theorem debounce_run (uri : String) (m : Nat) :
    provRun (debounceEvents (m + 1) uri) = debounceStateS m uri := by
  induction m with
  | zero => rfl
  | succ k ih =>
      have hsplit :
          debounceEvents (k + 2) uri =
            debounceEvents (k + 1) uri ++ [.provide 0 uri true] := by
        simp [debounceEvents, List.replicate_succ']
      rw [provRun, hsplit, List.foldl_append]
      rw [show List.foldl provStep initialProvState (debounceEvents (k + 1) uri) =
            debounceStateS k uri from ih]
      simpa using debounce_step k uri

theorem debounce_fire_lookup (m : Nat) (uri : String) :
    lookupA (debounceStateS m uri).timers m =
      some ⟨0, uri, m, false, false⟩ := by
  unfold debounceStateS lookupA
  dsimp only
  rw [range_reverse_succ m, List.map_cons]
  rw [List.find?_cons_of_pos _ (by simp)]
  simp

theorem debounce_fire (m : Nat) (uri : String) :
    fireStep (debounceStateS m uri) m true =
      { fireCleanup (debounceStateS m uri) m with
        activeLints := [uri]
        inFlight := [(m, uri)]
        lintStarts := 1 } := by
  unfold fireStep
  rw [debounce_fire_lookup m uri]
  dsimp only
  rw [if_neg (by simp), if_neg (by simp),
    if_neg (by simp [debounceStateS])]
  rfl

theorem debounce_final (m : Nat) (uri : String) :
    debounceFullTrace (m + 1) uri =
      { nextRequestId := m + 1
        nextTimerId := m + 1
        pendingLints := [(0, ⟨m, m⟩)]
        pendingTimeouts := []
        pendingResolvers := []
        activeLints := []
        timers :=
          markFired
            (((List.range (m + 1)).reverse).map
              (fun i => (i, ⟨0, uri, i, decide (i ≠ m), false⟩))) m
        resolvedEmpty := (List.range m).reverse
        resolvedReal := [m]
        inFlight := []
        lintStarts := 1 } := by
  unfold debounceFullTrace
  simp only [Nat.add_sub_cancel]
  rw [debounce_run uri m, debounce_fire m uri]
  unfold completeStep
  have hlook : lookupA
      ({ fireCleanup (debounceStateS m uri) m with
        activeLints := [uri]
        inFlight := [(m, uri)]
        lintStarts := 1 } : ProvState).inFlight m = some uri := by
    unfold lookupA
    dsimp only
    rw [List.find?_cons_of_pos _ (by simp)]
    rfl
  rw [hlook]
  dsimp only
  rw [resolveRequest_pos _ _ _ (by simp [fireCleanup, debounceStateS])]
  simp [fireCleanup, debounceStateS, ProvState.mk.injEq]

/-- C2: for every sequence of `N ≥ 1` diagnostic requests arriving for the
same editor instance within the debounce window, exactly one lint executes,
the `N − 1` superseded requests (ids `0..N−2`) are resolved with the empty
result at supersession time, the final request (id `N−1`) is resolved with
the real lint result, and no promise is left pending. -/
theorem c2_debounce_supersession (N : Nat) (uri : String) (h : 1 ≤ N) :
    (debounceFullTrace N uri).lintStarts = 1 ∧
      (debounceFullTrace N uri).resolvedReal = [N - 1] ∧
      (debounceFullTrace N uri).resolvedEmpty =
        (List.range (N - 1)).reverse ∧
      (debounceFullTrace N uri).resolvedEmpty.length = N - 1 ∧
      (∀ i, i < N - 1 → i ∈ (debounceFullTrace N uri).resolvedEmpty) ∧
      (debounceFullTrace N uri).pendingResolvers = [] := by
  obtain ⟨m, rfl⟩ : ∃ m, N = m + 1 := ⟨N - 1, by omega⟩
  rw [debounce_final m uri]
  simp

/-- C2 witness: the theorem at `N = 3`. -/
theorem c2_debounce_supersession_witness :
    (debounceFullTrace 3 "file:///a.js").lintStarts = 1 ∧
      (debounceFullTrace 3 "file:///a.js").resolvedReal = [2] ∧
      (debounceFullTrace 3 "file:///a.js").resolvedEmpty =
        (List.range 2).reverse ∧
      (debounceFullTrace 3 "file:///a.js").resolvedEmpty.length = 2 ∧
      (∀ i, i < 2 → i ∈ (debounceFullTrace 3 "file:///a.js").resolvedEmpty) ∧
      (debounceFullTrace 3 "file:///a.js").pendingResolvers = [] := by
  exact c2_debounce_supersession 3 "file:///a.js" (by omega)

/-! ## Fix-on-save cycle lemmas -/

theorem clearTimerId_eq (s : FixCycleState) (id : Nat) :
    clearTimerId s id =
      { s with
        fTimer := { s.fTimer with cleared := s.fTimer.cleared || decide (id = 0) }
        eTimer := { s.eTimer with cleared := s.eTimer.cleared || decide (id = 1) }
        tTimer := { s.tTimer with cleared := s.tTimer.cleared || decide (id = 2) } } := by
  unfold clearTimerId
  by_cases h0 : id = 0
  · subst h0
    simp
  · rw [if_neg h0]
    by_cases h1 : id = 1
    · subst h1
      simp
    · rw [if_neg h1]
      by_cases h2 : id = 2
      · subst h2
        simp
      · rw [if_neg h2]
        simp [h0, h1, h2]

theorem foldl_clearTimerId (l : List Nat) (s : FixCycleState) :
    l.foldl clearTimerId s =
      { s with
        fTimer := { s.fTimer with
          cleared := s.fTimer.cleared || l.any (fun i => decide (i = 0)) }
        eTimer := { s.eTimer with
          cleared := s.eTimer.cleared || l.any (fun i => decide (i = 1)) }
        tTimer := { s.tTimer with
          cleared := s.tTimer.cleared || l.any (fun i => decide (i = 2)) } } := by
  induction l generalizing s with
  | nil => simp
  | cons a rest ih =>
      rw [List.foldl_cons, ih, clearTimerId_eq]
      simp [Bool.or_assoc]

theorem stopFixing_char (s : FixCycleState) :
    stopFixing s =
      match s.fixing with
      | none => { s with fixing := none }
      | some st =>
          { s with
            fixing := none
            fTimer := { s.fTimer with
              cleared := (s.fTimer.cleared || decide (st.failsafe = 0)) ||
                st.pending.any (fun i => decide (i = 0)) }
            eTimer := { s.eTimer with
              cleared := (s.eTimer.cleared || decide (st.failsafe = 1)) ||
                st.pending.any (fun i => decide (i = 1)) }
            tTimer := { s.tTimer with
              cleared := (s.tTimer.cleared || decide (st.failsafe = 2)) ||
                st.pending.any (fun i => decide (i = 2)) } } := by
  unfold stopFixing
  cases h : s.fixing with
  | none => rfl
  | some st =>
      dsimp only
      rw [clearTimerId_eq, foldl_clearTimerId]

@[simp]
theorem stopFixing_pc (s : FixCycleState) : (stopFixing s).pc = s.pc := by
  rw [stopFixing_char]
  cases s.fixing <;> rfl

@[simp]
theorem stopFixing_fixing (s : FixCycleState) : (stopFixing s).fixing = none := by
  rw [stopFixing_char]
  cases s.fixing <;> rfl

@[simp]
theorem stopFixing_fixedContent (s : FixCycleState) :
    (stopFixing s).fixedContent = s.fixedContent := by
  rw [stopFixing_char]
  cases s.fixing <;> rfl

@[simp]
theorem stopFixing_editInvoked (s : FixCycleState) :
    (stopFixing s).editInvoked = s.editInvoked := by
  rw [stopFixing_char]
  cases s.fixing <;> rfl

@[simp]
theorem stopFixing_saveInvoked (s : FixCycleState) :
    (stopFixing s).saveInvoked = s.saveInvoked := by
  rw [stopFixing_char]
  cases s.fixing <;> rfl

@[simp]
theorem stopFixing_aborted (s : FixCycleState) :
    (stopFixing s).aborted = s.aborted := by
  rw [stopFixing_char]
  cases s.fixing <;> rfl

@[simp]
theorem stopFixing_fTimer_created (s : FixCycleState) :
    (stopFixing s).fTimer.created = s.fTimer.created := by
  rw [stopFixing_char]
  cases s.fixing <;> rfl

@[simp]
theorem stopFixing_fTimer_fired (s : FixCycleState) :
    (stopFixing s).fTimer.fired = s.fTimer.fired := by
  rw [stopFixing_char]
  cases s.fixing <;> rfl

@[simp]
theorem stopFixing_fTimer_tracked (s : FixCycleState) :
    (stopFixing s).fTimer.tracked = s.fTimer.tracked := by
  rw [stopFixing_char]
  cases s.fixing <;> rfl

@[simp]
theorem stopFixing_eTimer_created (s : FixCycleState) :
    (stopFixing s).eTimer.created = s.eTimer.created := by
  rw [stopFixing_char]
  cases s.fixing <;> rfl

@[simp]
theorem stopFixing_eTimer_fired (s : FixCycleState) :
    (stopFixing s).eTimer.fired = s.eTimer.fired := by
  rw [stopFixing_char]
  cases s.fixing <;> rfl

@[simp]
theorem stopFixing_eTimer_tracked (s : FixCycleState) :
    (stopFixing s).eTimer.tracked = s.eTimer.tracked := by
  rw [stopFixing_char]
  cases s.fixing <;> rfl

@[simp]
theorem stopFixing_tTimer_created (s : FixCycleState) :
    (stopFixing s).tTimer.created = s.tTimer.created := by
  rw [stopFixing_char]
  cases s.fixing <;> rfl

@[simp]
theorem stopFixing_tTimer_fired (s : FixCycleState) :
    (stopFixing s).tTimer.fired = s.tTimer.fired := by
  rw [stopFixing_char]
  cases s.fixing <;> rfl

@[simp]
theorem stopFixing_tTimer_tracked (s : FixCycleState) :
    (stopFixing s).tTimer.tracked = s.tTimer.tracked := by
  rw [stopFixing_char]
  cases s.fixing <;> rfl

@[simp]
theorem addPendingTimeout_pc (s : FixCycleState) (id : Nat) :
    (addPendingTimeout s id).pc = s.pc := by
  unfold addPendingTimeout
  cases s.fixing <;> rfl

@[simp]
theorem addPendingTimeout_saveInvoked (s : FixCycleState) (id : Nat) :
    (addPendingTimeout s id).saveInvoked = s.saveInvoked := by
  unfold addPendingTimeout
  cases s.fixing <;> rfl

@[simp]
theorem addPendingTimeout_editInvoked (s : FixCycleState) (id : Nat) :
    (addPendingTimeout s id).editInvoked = s.editInvoked := by
  unfold addPendingTimeout
  cases s.fixing <;> rfl

@[simp]
theorem addPendingTimeout_aborted (s : FixCycleState) (id : Nat) :
    (addPendingTimeout s id).aborted = s.aborted := by
  unfold addPendingTimeout
  cases s.fixing <;> rfl

@[simp]
theorem addPendingTimeout_fTimer (s : FixCycleState) (id : Nat) :
    (addPendingTimeout s id).fTimer = s.fTimer := by
  unfold addPendingTimeout
  cases s.fixing <;> rfl

@[simp]
theorem addPendingTimeout_eTimer (s : FixCycleState) (id : Nat) :
    (addPendingTimeout s id).eTimer = s.eTimer := by
  unfold addPendingTimeout
  cases s.fixing <;> rfl

@[simp]
theorem addPendingTimeout_tTimer (s : FixCycleState) (id : Nat) :
    (addPendingTimeout s id).tTimer = s.tTimer := by
  unfold addPendingTimeout
  cases s.fixing <;> rfl

theorem fixInv_stopFixing (s : FixCycleState) (h : FixInv s) :
    FixInv (stopFixing s) := by
  rw [stopFixing_char]
  unfold FixInv at h
  cases hf : s.fixing with
  | none =>
      rw [hf] at h
      exact h
  | some st =>
      rw [hf] at h
      obtain ⟨hfs, he, ht⟩ := h
      unfold FixInv
      refine ⟨?_, ?_, ?_⟩
      · intro _
        left
        simp [hfs]
      · intro htr
        rcases he htr with hc | hfd | hp
        · left
          simp [hc]
        · right
          exact hfd
        · left
          have hany : st.pending.any (fun i => decide (i = 1)) = true :=
            List.any_eq_true.mpr ⟨1, hp, by simp⟩
          simp [hany]
      · intro htr
        rcases ht htr with hc | hfd | hp
        · left
          simp [hc]
        · right
          exact hfd
        · left
          have hany : st.pending.any (fun i => decide (i = 2)) = true :=
            List.any_eq_true.mpr ⟨2, hp, by simp⟩
          simp [hany]

theorem fixInv_set_fFired (s : FixCycleState) (h : FixInv s) :
    FixInv { s with fTimer := { s.fTimer with fired := true } } := by
  obtain ⟨pc, fx, fT, eT, tT, fc, ei, si, ab⟩ := s
  unfold FixInv at h ⊢
  cases fx with
  | none => exact ⟨fun _ => Or.inr rfl, h.2.1, h.2.2⟩
  | some st => exact h

theorem fixInv_set_eFired (s : FixCycleState) (h : FixInv s) :
    FixInv { s with eTimer := { s.eTimer with fired := true } } := by
  obtain ⟨pc, fx, fT, eT, tT, fc, ei, si, ab⟩ := s
  unfold FixInv at h ⊢
  cases fx with
  | none => exact ⟨h.1, fun _ => Or.inr rfl, h.2.2⟩
  | some st => exact ⟨h.1, fun _ => Or.inr (Or.inl rfl), h.2.2⟩

theorem fixInv_set_tFired (s : FixCycleState) (h : FixInv s) :
    FixInv { s with tTimer := { s.tTimer with fired := true } } := by
  obtain ⟨pc, fx, fT, eT, tT, fc, ei, si, ab⟩ := s
  unfold FixInv at h ⊢
  cases fx with
  | none => exact ⟨h.1, h.2.1, fun _ => Or.inr rfl⟩
  | some st => exact ⟨h.1, h.2.1, fun _ => Or.inr (Or.inl rfl)⟩

theorem fixStep_fixInv (s : FixCycleState) (e : FixEvent) (h : FixInv s) :
    FixInv (fixStep s e) := by
  obtain ⟨pc, fx, fT, eT, tT, fc, ei, si, ab⟩ := s
  cases e with
  | trigger =>
      unfold fixStep
      dsimp only
      split
      · rename_i hg
        have hfx : fx = none := by
          have hg2 := hg
          simp [Option.isNone_iff_eq_none] at hg2
          exact hg2.2
        subst hfx
        unfold FixInv at h ⊢
        obtain ⟨h1, h2, h3⟩ := h
        exact ⟨rfl,
          fun tr => (h2 tr).elim Or.inl (fun hfd => Or.inr (Or.inl hfd)),
          fun tr => (h3 tr).elim Or.inl (fun hfd => Or.inr (Or.inl hfd))⟩
      · exact h
  | fixResult r c =>
      unfold fixStep
      dsimp only
      split
      · cases r with
        | none => exact fixInv_stopFixing _ h
        | some fixed =>
            dsimp only
            split
            · exact fixInv_stopFixing _ h
            · exact h
      · exact h
  | fixError =>
      unfold fixStep
      dsimp only
      split
      · exact fixInv_stopFixing _ h
      · exact h
  | editDone =>
      unfold fixStep
      dsimp only
      split
      · unfold addPendingTimeout
        dsimp only
        cases fx with
        | some st =>
            unfold FixInv at h ⊢
            obtain ⟨hfs, he, ht⟩ := h
            refine ⟨hfs, ?_, ?_⟩
            · intro _
              exact Or.inr (Or.inr (by simp))
            · intro tr
              rcases ht tr with hc | hfd | hp
              · exact Or.inl hc
              · exact Or.inr (Or.inl hfd)
              · exact Or.inr (Or.inr (List.mem_append_left _ hp))
        | none =>
            unfold FixInv at h ⊢
            obtain ⟨h1, h2, h3⟩ := h
            exact ⟨h1, fun tr => absurd tr (by simp), h3⟩
      · exact h
  | editError =>
      unfold fixStep
      dsimp only
      split
      · exact fixInv_stopFixing _ h
      · exact h
  | fireF =>
      unfold fixStep
      dsimp only
      split
      · exact fixInv_stopFixing _ (fixInv_set_fFired _ h)
      · exact h
  | fireE docOpen c =>
      unfold fixStep
      dsimp only
      split
      · split
        · exact fixInv_stopFixing _ (fixInv_set_eFired _ h)
        · cases fc with
          | some fixed =>
              dsimp only
              split
              · exact fixInv_stopFixing _ (fixInv_set_eFired _ h)
              · exact fixInv_set_eFired _ h
          | none => exact fixInv_set_eFired _ h
      · exact h
  | saveOk =>
      unfold fixStep
      dsimp only
      split
      · unfold addPendingTimeout
        dsimp only
        cases fx with
        | some st =>
            unfold FixInv at h ⊢
            obtain ⟨hfs, he, ht⟩ := h
            refine ⟨hfs, ?_, ?_⟩
            · intro tr
              rcases he tr with hc | hfd | hp
              · exact Or.inl hc
              · exact Or.inr (Or.inl hfd)
              · exact Or.inr (Or.inr (List.mem_append_left _ hp))
            · intro _
              exact Or.inr (Or.inr (by simp))
        | none =>
            unfold FixInv at h ⊢
            obtain ⟨h1, h2, h3⟩ := h
            exact ⟨h1, h2, fun tr => absurd tr (by simp)⟩
      · exact h
  | saveError =>
      unfold fixStep
      dsimp only
      split
      · exact fixInv_stopFixing _ h
      · exact h
  | fireT =>
      unfold fixStep
      dsimp only
      split
      · exact fixInv_stopFixing _ (fixInv_set_tFired _ h)
      · exact h

theorem fixInv_init : FixInv fixInit := by
  unfold FixInv fixInit
  exact ⟨fun tr => absurd tr (by simp), fun tr => absurd tr (by simp),
    fun tr => absurd tr (by simp)⟩

theorem fixInv_run (events : List FixEvent) : FixInv (fixRun events) := by
  rw [fixRun]
  have hstep : ∀ l (s : FixCycleState), FixInv s →
      FixInv (List.foldl fixStep s l) := by
    intro l
    induction l with
    | nil => exact fun s h => h
    | cons a rest ih => exact fun s h => ih _ (fixStep_fixInv s a h)
  exact hstep events fixInit fixInv_init

/-! ## C4 -/

/-- C4 counterexample: when the failsafe fires while `runner.fix` is still
awaited (the external tool is slower than the 5-second failsafe), the cycle
returns to Idle, but the continuation later creates the edit-settle timer
with the fixing entry already gone — `addPendingTimeout` records nothing —
so that timer is untracked, still live after the cycle has concluded, and
subsequently fires (here even invoking `editor.save()`), contradicting the
claim that no timer created by the cycle fires after the cycle has
concluded. -/
theorem c4_timer_counterexample :
    (fixRun [.trigger, .fireF, .fixResult (some "a") "b",
        .editDone]).fixing = none ∧
      (fixRun [.trigger, .fireF, .fixResult (some "a") "b",
        .editDone]).eTimer.created = true ∧
      (fixRun [.trigger, .fireF, .fixResult (some "a") "b",
        .editDone]).eTimer.cleared = false ∧
      (fixRun [.trigger, .fireF, .fixResult (some "a") "b",
        .editDone]).eTimer.fired = false ∧
      (fixRun [.trigger, .fireF, .fixResult (some "a") "b",
        .editDone]).eTimer.tracked = false ∧
      (fixRun [.trigger, .fireF, .fixResult (some "a") "b",
        .editDone]).saveInvoked = false ∧
      (fixRun [.trigger, .fireF, .fixResult (some "a") "b", .editDone,
        .fireE true "a"]).eTimer.fired = true ∧
      (fixRun [.trigger, .fireF, .fixResult (some "a") "b", .editDone,
        .fireE true "a"]).saveInvoked = true := by
  decide

/-- C4 amended: every timer that was created while the editor's fixing entry
still existed (and was therefore tracked by `startFixing` /
`addPendingTimeout`) is cleared or has fired whenever the cycle is Idle —
through any terminal path — and firing such a tracked timer after the cycle
has concluded is a no-op; only a timer created by a continuation that runs
after the failsafe has already concluded the cycle is untracked and can
still fire. -/
theorem c4_timer_cleanup_amended (events : List FixEvent)
    (h : (fixRun events).fixing = none) :
    ((fixRun events).fTimer.tracked = true →
        (fixRun events).fTimer.cleared = true ∨
          (fixRun events).fTimer.fired = true) ∧
      ((fixRun events).eTimer.tracked = true →
        (fixRun events).eTimer.cleared = true ∨
          (fixRun events).eTimer.fired = true) ∧
      ((fixRun events).tTimer.tracked = true →
        (fixRun events).tTimer.cleared = true ∨
          (fixRun events).tTimer.fired = true) ∧
      ((fixRun events).fTimer.tracked = true →
        fixStep (fixRun events) .fireF = fixRun events) ∧
      (∀ docOpen c, (fixRun events).eTimer.tracked = true →
        fixStep (fixRun events) (.fireE docOpen c) = fixRun events) ∧
      ((fixRun events).tTimer.tracked = true →
        fixStep (fixRun events) .fireT = fixRun events) := by
  have hinv := fixInv_run events
  unfold FixInv at hinv
  rw [h] at hinv
  obtain ⟨h1, h2, h3⟩ := hinv
  refine ⟨h1, h2, h3, ?_, ?_, ?_⟩
  · intro tr
    rcases h1 tr with hc | hfd
    · unfold fixStep
      dsimp only
      rw [if_neg (by simp [hc])]
    · unfold fixStep
      dsimp only
      rw [if_neg (by simp [hfd])]
  · intro docOpen c tr
    rcases h2 tr with hc | hfd
    · unfold fixStep
      dsimp only
      rw [if_neg (by simp [hc])]
    · unfold fixStep
      dsimp only
      rw [if_neg (by simp [hfd])]
  · intro tr
    rcases h3 tr with hc | hfd
    · unfold fixStep
      dsimp only
      rw [if_neg (by simp [hc])]
    · unfold fixStep
      dsimp only
      rw [if_neg (by simp [hfd])]

/-- C4 witness: the amended theorem on a cycle that ended through the
early-no-op path; the tracked failsafe is cleared and firing it is a
no-op. -/
theorem c4_timer_cleanup_amended_witness :
    ((fixRun [.trigger, .fixResult (some "a") "a"]).fTimer.cleared = true ∨
        (fixRun [.trigger, .fixResult (some "a") "a"]).fTimer.fired = true) ∧
      fixStep (fixRun [.trigger, .fixResult (some "a") "a"]) .fireF =
        fixRun [.trigger, .fixResult (some "a") "a"] ∧
      fixStep
          (fixRun [.trigger, .fixResult (some "a") "b", .editDone,
            .fireE true "zzz"]) (.fireE true "a") =
        fixRun [.trigger, .fixResult (some "a") "b", .editDone,
          .fireE true "zzz"] := by
  have h := c4_timer_cleanup_amended [.trigger, .fixResult (some "a") "a"]
    (by decide)
  have h2 := c4_timer_cleanup_amended
    [.trigger, .fixResult (some "a") "b", .editDone, .fireE true "zzz"]
    (by decide)
  exact ⟨h.1 (by decide), h.2.2.2.1 (by decide),
    h2.2.2.2.2.1 true "a" (by decide)⟩

/-! ## C5 -/

theorem fixStep_abortInv (s : FixCycleState) (e : FixEvent)
    (h : AbortInv s) : AbortInv (fixStep s e) := by
  obtain ⟨pc, fx, fT, eT, tT, fc, ei, si, ab⟩ := s
  obtain ⟨hse0, habt0⟩ := h
  have hse : si = true → eT.fired = true ∧ pc ≠ 0 ∧ pc ≠ 1 ∧ pc ≠ 2 := hse0
  have habt : ab = true → si = false ∧ fx = none ∧ eT.fired = true ∧
      pc = 9 := habt0
  cases e with
  | trigger =>
      unfold fixStep
      dsimp only
      split
      · rename_i hg
        simp [Option.isNone_iff_eq_none] at hg
        refine ⟨fun hsv => ((hse hsv).2.1 hg.1).elim, fun hab => ?_⟩
        exact absurd (habt hab).2.2.2 (by omega)
      · exact ⟨hse0, habt0⟩
  | fixResult r c =>
      unfold fixStep
      dsimp only
      split
      · rename_i hg
        simp at hg
        have hnsv : si = true → False := fun hsv => (hse hsv).2.2.1 hg
        have hnab : ab = true → False := fun hab =>
          absurd (habt hab).2.2.2 (by omega)
        cases r with
        | none =>
            refine ⟨fun hsv => ?_, fun hab => ?_⟩
            · simp at hsv
              exact (hnsv hsv).elim
            · simp at hab
              exact (hnab hab).elim
        | some fixed =>
            dsimp only
            split
            · refine ⟨fun hsv => ?_, fun hab => ?_⟩
              · simp at hsv
                exact (hnsv hsv).elim
              · simp at hab
                exact (hnab hab).elim
            · exact ⟨fun hsv => (hnsv hsv).elim, fun hab => (hnab hab).elim⟩
      · exact ⟨hse0, habt0⟩
  | fixError =>
      unfold fixStep
      dsimp only
      split
      · rename_i hg
        simp at hg
        have hnsv : si = true → False := fun hsv => (hse hsv).2.2.1 hg
        have hnab : ab = true → False := fun hab =>
          absurd (habt hab).2.2.2 (by omega)
        refine ⟨fun hsv => ?_, fun hab => ?_⟩
        · simp at hsv
          exact (hnsv hsv).elim
        · simp at hab
          exact (hnab hab).elim
      · exact ⟨hse0, habt0⟩
  | editDone =>
      unfold fixStep
      dsimp only
      split
      · rename_i hg
        simp at hg
        have hnsv : si = true → False := fun hsv => (hse hsv).2.2.2 hg
        have hnab : ab = true → False := fun hab =>
          absurd (habt hab).2.2.2 (by omega)
        refine ⟨fun hsv => ?_, fun hab => ?_⟩
        · simp at hsv
          exact (hnsv hsv).elim
        · simp at hab
          exact (hnab hab).elim
      · exact ⟨hse0, habt0⟩
  | editError =>
      unfold fixStep
      dsimp only
      split
      · rename_i hg
        simp at hg
        have hnsv : si = true → False := fun hsv => (hse hsv).2.2.2 hg
        have hnab : ab = true → False := fun hab =>
          absurd (habt hab).2.2.2 (by omega)
        refine ⟨fun hsv => ?_, fun hab => ?_⟩
        · simp at hsv
          exact (hnsv hsv).elim
        · simp at hab
          exact (hnab hab).elim
      · exact ⟨hse0, habt0⟩
  | fireF =>
      unfold fixStep
      dsimp only
      split
      · refine ⟨fun hsv => ?_, fun hab => ?_⟩
        · simp at hsv ⊢
          exact hse hsv
        · simp at hab
          obtain ⟨h1, _, h3, h4⟩ := habt hab
          exact ⟨by simpa using h1, by simp, by simpa using h3,
            by simpa using h4⟩
      · exact ⟨hse0, habt0⟩
  | fireE docOpen c =>
      unfold fixStep
      dsimp only
      split
      · rename_i hg
        have hefd : eT.fired = false := by
          by_contra hc
          rw [Bool.not_eq_false] at hc
          simp [hc] at hg
        have hnab : ab = true → False := fun hab => by
          have he := (habt hab).2.2.1
          simp [hefd] at he
        have hsi : si = false := by
          cases hsi2 : si
          · rfl
          · have he := (hse hsi2).1
            simp [hefd] at he
        split
        · refine ⟨fun _ => ⟨by simp, by simp⟩, fun hab => ?_⟩
          simp at hab
          exact (hnab hab).elim
        · cases fc with
          | some fixed =>
              dsimp only
              split
              · refine ⟨fun _ => ⟨by simp, by simp⟩, fun _ => ?_⟩
                exact ⟨by simpa using hsi, by simp, by simp, rfl⟩
              · exact ⟨fun _ => ⟨rfl, by simp⟩, fun hab => (hnab hab).elim⟩
          | none =>
              refine ⟨fun hsv => ?_, fun hab => ?_⟩
              · simp at hsv
                rw [hsi] at hsv
                cases hsv
              · obtain ⟨h1, h2, _, h4⟩ := habt (by simpa using hab)
                exact ⟨h1, h2, rfl, h4⟩
      · exact ⟨hse0, habt0⟩
  | saveOk =>
      unfold fixStep
      dsimp only
      split
      · rename_i hg
        simp at hg
        have hnab : ab = true → False := fun hab =>
          absurd (habt hab).2.2.2 (by omega)
        refine ⟨fun hsv => ?_, fun hab => ?_⟩
        · simp at hsv
          exact ⟨by simpa using (hse hsv).1, by simp⟩
        · simp at hab
          exact (hnab hab).elim
      · exact ⟨hse0, habt0⟩
  | saveError =>
      unfold fixStep
      dsimp only
      split
      · rename_i hg
        simp at hg
        have hnab : ab = true → False := fun hab =>
          absurd (habt hab).2.2.2 (by omega)
        refine ⟨fun hsv => ?_, fun hab => ?_⟩
        · simp at hsv
          exact ⟨by simpa using (hse hsv).1, by simp⟩
        · simp at hab
          exact (hnab hab).elim
      · exact ⟨hse0, habt0⟩
  | fireT =>
      unfold fixStep
      dsimp only
      split
      · refine ⟨fun hsv => ?_, fun hab => ?_⟩
        · simp at hsv
          exact ⟨by simpa using (hse hsv).1, by simp⟩
        · simp at hab
          obtain ⟨h1, _, h3, _⟩ := habt hab
          exact ⟨by simpa using h1, by simp, by simpa using h3, rfl⟩
      · exact ⟨hse0, habt0⟩

theorem abortInv_run (events : List FixEvent) : AbortInv (fixRun events) := by
  rw [fixRun]
  have hstep : ∀ l (s : FixCycleState), AbortInv s →
      AbortInv (List.foldl fixStep s l) := by
    intro l
    induction l with
    | nil => exact fun s h => h
    | cons a rest ih => exact fun s h => ih _ (fixStep_abortInv s a h)
  refine hstep events fixInit ⟨fun hsv => ?_, fun hab => ?_⟩
  · exact absurd hsv (by simp [fixInit])
  · exact absurd hab (by simp [fixInit])

/-- C5: in every fix-on-save cycle in which the fix edit was applied, if the
buffer content read by the settle callback differs from the fixed text, the
cycle aborts: `editor.save()` is never invoked during the whole run and the
cycle is back in Idle. -/
theorem c5_concurrent_edit_abort (events : List FixEvent)
    (h : (fixRun events).aborted = true) :
    (fixRun events).saveInvoked = false ∧ (fixRun events).fixing = none := by
  obtain ⟨_, habt⟩ := abortInv_run events
  obtain ⟨h1, h2, _, _⟩ := habt h
  exact ⟨h1, h2⟩

/-- C5 witness: a cycle whose buffer content changes during the settle
window. -/
theorem c5_concurrent_edit_abort_witness :
    (fixRun [.trigger, .fixResult (some "a") "b", .editDone,
        .fireE true "zzz"]).saveInvoked = false ∧
      (fixRun [.trigger, .fixResult (some "a") "b", .editDone,
        .fireE true "zzz"]).fixing = none := by
  exact c5_concurrent_edit_abort
    [.trigger, .fixResult (some "a") "b", .editDone, .fireE true "zzz"]
    (by decide)

/-! ## C10 -/

theorem fixStep_quiet (s : FixCycleState) (e : FixEvent) (hq : QuietInv s)
    (hr : ∀ r c, e = .fixResult r c → r = none) :
    QuietInv (fixStep s e) := by
  obtain ⟨pc, fx, fT, eT, tT, fc, ei, si, ab⟩ := s
  obtain ⟨h1, h2, h3, h4, h5⟩ := hq
  have h1' : ei = false := h1
  have h2' : si = false := h2
  have h3' : eT.created = false := h3
  have h4' : tT.created = false := h4
  have h5' : pc = 0 ∨ pc = 1 ∨ pc = 9 := h5
  cases e with
  | trigger =>
      unfold fixStep
      dsimp only
      split
      · exact ⟨h1', h2', h3', h4', Or.inr (Or.inl rfl)⟩
      · exact ⟨h1, h2, h3, h4, h5⟩
  | fixResult r c =>
      have hrn : r = none := hr r c rfl
      subst hrn
      unfold fixStep
      dsimp only
      split
      · exact ⟨by simpa using h1', by simpa using h2', by simpa using h3',
          by simpa using h4', Or.inr (Or.inr rfl)⟩
      · exact ⟨h1, h2, h3, h4, h5⟩
  | fixError =>
      unfold fixStep
      dsimp only
      split
      · exact ⟨by simpa using h1', by simpa using h2', by simpa using h3',
          by simpa using h4', Or.inr (Or.inr rfl)⟩
      · exact ⟨h1, h2, h3, h4, h5⟩
  | editDone =>
      unfold fixStep
      dsimp only
      split
      · rename_i hg
        simp at hg
        exact absurd h5' (by omega)
      · exact ⟨h1, h2, h3, h4, h5⟩
  | editError =>
      unfold fixStep
      dsimp only
      split
      · rename_i hg
        simp at hg
        exact absurd h5' (by omega)
      · exact ⟨h1, h2, h3, h4, h5⟩
  | fireF =>
      unfold fixStep
      dsimp only
      split
      · exact ⟨by simpa using h1', by simpa using h2', by simpa using h3',
          by simpa using h4', by simpa using h5'⟩
      · exact ⟨h1, h2, h3, h4, h5⟩
  | fireE docOpen c =>
      unfold fixStep
      dsimp only
      split
      · rename_i hg
        rw [h3'] at hg
        simp at hg
      · exact ⟨h1, h2, h3, h4, h5⟩
  | saveOk =>
      unfold fixStep
      dsimp only
      split
      · rename_i hg
        simp at hg
        exact absurd h5' (by omega)
      · exact ⟨h1, h2, h3, h4, h5⟩
  | saveError =>
      unfold fixStep
      dsimp only
      split
      · rename_i hg
        simp at hg
        exact absurd h5' (by omega)
      · exact ⟨h1, h2, h3, h4, h5⟩
  | fireT =>
      unfold fixStep
      dsimp only
      split
      · rename_i hg
        rw [h4'] at hg
        simp at hg
      · exact ⟨h1, h2, h3, h4, h5⟩

theorem quiet_run (events : List FixEvent)
    (hev : ∀ r c, FixEvent.fixResult r c ∈ events → r = none) :
    QuietInv (fixRun events) := by
  rw [fixRun]
  have hstep : ∀ l (s : FixCycleState),
      (∀ r c, FixEvent.fixResult r c ∈ l → r = none) → QuietInv s →
        QuietInv (List.foldl fixStep s l) := by
    intro l
    induction l with
    | nil => exact fun s _ h => h
    | cons a rest ih =>
        intro s hm h
        refine ih _ (fun r c hrc => hm r c (List.mem_cons_of_mem _ hrc)) ?_
        refine fixStep_quiet s a h (fun r c heq => hm r c ?_)
        rw [← heq]
        exact List.mem_cons_self _ _
  exact hstep events fixInit hev ⟨rfl, rfl, rfl, rfl, Or.inl rfl⟩

/-- C10: an `output` field equal to the empty string is falsy, so
`ESLintRunner.fix` returns `null` (`result?.output || null`) and
`LintService.fix` returns the no-fixes outcome (`fixedContent = null`,
`hasChanges = false`); consequently a fix-on-save cycle whose `runner.fix`
only produces the no-fixes outcome performs no edit and no save. -/
theorem c10_empty_fix_output (jp : String → Option JSValue) (stdout : String)
    (hjson : jp stdout = some (.arrV [.objV [("output", .strV "")]]))
    (events : List FixEvent)
    (hev : ∀ r c, FixEvent.fixResult r c ∈ events → r = none) :
    runnerFixOutput (some (.objV [("output", .strV "")])) = none ∧
      lintServiceFixOutcome jp 0 stdout "" = .ok ⟨none, false⟩ ∧
      (fixRun events).editInvoked = false ∧
      (fixRun events).saveInvoked = false := by
  have hq := quiet_run events hev
  refine ⟨rfl, ?_, hq.1, hq.2.1⟩
  by_cases h1 : stdout = ""
  · subst h1
    rfl
  · by_cases h2 : jsTrim stdout = ""
    · unfold lintServiceFixOutcome parseOutputLS
      rw [if_neg (by norm_num)]
      dsimp only
      rw [if_neg h1, if_pos h2]
      rfl
    · unfold lintServiceFixOutcome parseOutputLS
      rw [if_neg (by norm_num)]
      dsimp only
      rw [if_neg h1, if_neg h2, hjson]
      rfl

/-- C10 witness: the theorem at the all-empty-output `JSON.parse` oracle and
a cycle whose fix result is the no-fixes outcome. -/
theorem c10_empty_fix_output_witness :
    runnerFixOutput (some (.objV [("output", .strV "")])) = none ∧
      lintServiceFixOutcome jpEmptyOutput 0 "x" "" = .ok ⟨none, false⟩ ∧
      (fixRun [.trigger, .fixResult none "x"]).editInvoked = false ∧
      (fixRun [.trigger, .fixResult none "x"]).saveInvoked = false := by
  refine c10_empty_fix_output jpEmptyOutput "x" rfl
    [.trigger, .fixResult none "x"] ?_
  intro r c h
  simp at h
  exact h.1

end NovaEslint
